import Mathlib

/-!
Shallow embedding of the RedStone "Data Defender" game core (src/App.jsx,
the variant with explicit floor geometry: `FLOOR_PAD_PX` / `FLOOR_HEIGHT_PX`,
`drawSize`, `laneSafeToSpawn`).  JavaScript numbers are modelled as
rationals (ℚ); the random draws consumed by the spawner are passed in
explicitly as a `SpawnRoll`; the browser's network calls are modelled by
boolean "throws" flags and by recording the requests the code would issue.
-/

namespace DataDefender

/-! ### Configuration constants (src/App.jsx, Config section) -/

def LANES : Nat := 5

def PKT_SIZE_DESKTOP : ℚ := 66

def PKT_SIZE_MOBILE : ℚ := 58

/-- 0.40 : 40% logos, 60% corrupted. -/
def VALID_CHANCE : ℚ := 40 / 100

def SCORE_PER_HIT : ℚ := 10

def SCORE_GREEN_MISS : ℚ := -5

def BASE_SPEED_PX_S : ℚ := 260

/-- 0.55 : +55% speed every minute. -/
def SPEED_RAMP_PER_MIN : ℚ := 55 / 100

def SPAWN_BASE_MS : ℚ := 520

def SPAWN_MIN_MS : ℚ := 120

def SPAWN_ACCEL_PER_MIN : ℚ := 300

/-- Floor geometry: `bottom-3` = 12px. -/
def FLOOR_PAD_PX : ℚ := 12

/-- Floor geometry: `h-2` = 8px. -/
def FLOOR_HEIGHT_PX : ℚ := 8

/-- Packets spawn at `y = 10` ("spawn inside container"). -/
def SPAWN_Y : ℚ := 10

/-! ### Helpers (src/App.jsx, Helpers section) -/

/-- `Math.max` on two numbers (executable form of `max` on ℚ). -/
def jsMax (a b : ℚ) : ℚ := if a ≤ b then b else a

/-- `Math.min` on two numbers (executable form of `min` on ℚ). -/
def jsMin (a b : ℚ) : ℚ := if a ≤ b then a else b

/-- `const clamp = (n, a, b) => Math.max(a, Math.min(b, n))`. -/
def clamp (n a b : ℚ) : ℚ := jsMax a (jsMin b n)

/-! ### Difficulty model

`currentSpeed` / `currentSpawnInterval` read `now() - startedAt`; we pass
that elapsed time (in milliseconds) as the argument. -/

/-- `currentSpeed`: `minutes = max(0, elapsed/60000)`;
`BASE_SPEED_PX_S * (1 + SPEED_RAMP_PER_MIN * minutes)` (px / s). -/
def currentSpeed (elapsedMs : ℚ) : ℚ :=
  let minutes := jsMax 0 (elapsedMs / 60000)
  let mult := 1 + SPEED_RAMP_PER_MIN * minutes
  BASE_SPEED_PX_S * mult

/-- `currentSpawnInterval`: `clamp(SPAWN_BASE_MS - SPAWN_ACCEL_PER_MIN * minutes,
SPAWN_MIN_MS, SPAWN_BASE_MS)`. -/
def currentSpawnInterval (elapsedMs : ℚ) : ℚ :=
  let minutes := jsMax 0 (elapsedMs / 60000)
  let interval := SPAWN_BASE_MS - SPAWN_ACCEL_PER_MIN * minutes
  clamp interval SPAWN_MIN_MS SPAWN_BASE_MS

/-! ### Data model -/

/-- Session views: `"name" | "countdown" | "game" | "gameover" | "leaderboard"`. -/
inductive View where
  | name
  | countdown
  | game
  | gameover
  | leaderboard
deriving DecidableEq

/-- A falling packet, as pushed by `spawnPacket`:
`{id, lane, x, y, size, valid, img, scale}`. -/
structure Packet where
  id : String
  lane : Nat
  x : ℚ
  y : ℚ
  size : ℚ
  valid : Bool
  img : Option String
  scale : ℚ
deriving DecidableEq

/-- The round/session state the gameplay handlers read and write:
`stateRef.current.packets`, `scoreRef.current`, `view`, `runningRef.current`. -/
structure GState where
  packets : List Packet
  score : ℚ
  view : View
  running : Bool
deriving DecidableEq

/-- Board geometry as measured by `measureBoard`:
`{ w, h, lanesX }`. -/
structure Board where
  w : ℚ
  h : ℚ
  lanesX : List ℚ

/-- One entry of `GREEN_SPRITES`: `{ src, scale }`. -/
structure Sprite where
  src : String
  scale : ℚ

/-- `GREEN_SPRITES`: logos at scale 1.00, Stoney sprites at scale 1.22 (= 61/50). -/
def GREEN_SPRITES : List Sprite :=
  [⟨("logo1.png"), 1⟩, ⟨("logo2.png"), 1⟩, ⟨("logo3.png"), 1⟩, ⟨("logo4.png"), 1⟩,
   ⟨("stoney1.png"), 61 / 50⟩, ⟨("stoney2.png"), 61 / 50⟩, ⟨("stoney3.png"), 61 / 50⟩]

/-- `const drawSize = (p) => (p.valid && p.img ? p.size * (p.scale ?? 1) : p.size)`:
the actual drawn extent of a packet (logos may be scaled). -/
def drawSize (p : Packet) : ℚ :=
  if p.valid && p.img.isSome then p.size * p.scale else p.size

/-- `floorTop = boardSize.h - FLOOR_PAD_PX - FLOOR_HEIGHT_PX`: the top edge of
the red floor bar, computed inside `tick`. -/
def floorTop (h : ℚ) : ℚ := h - FLOOR_PAD_PX - FLOOR_HEIGHT_PX

/-! ### Spawner -/

/-- The `nearestY` accumulator loop of `laneSafeToSpawn`: the least `y` among
packets of lane `laneIdx`, `none` when the lane is empty (the source uses
`Infinity`).  The source scans forward keeping the running minimum; this
recursion computes the same minimum. -/
def nearestYInLane (ps : List Packet) (laneIdx : Nat) : Option ℚ :=
  match ps with
  | [] => none
  | p :: rest =>
    let r := nearestYInLane rest laneIdx
    if p.lane = laneIdx then
      match r with
      | none => some p.y
      | some ny => if p.y < ny then some p.y else some ny
    else r

/-- `laneSafeToSpawn(laneIdx)`: with `SPAWN_Y = 10` and
`MIN_GAP = pktSize * 1.25`, the lane is safe when it is empty or its nearest
packet satisfies `nearestY >= SPAWN_Y + pktSize + (MIN_GAP - pktSize)`. -/
def laneSafeToSpawn (ps : List Packet) (pktSize : ℚ) (laneIdx : Nat) : Bool :=
  let MIN_GAP := pktSize * (5 / 4)
  match nearestYInLane ps laneIdx with
  | none => true
  | some ny => decide (SPAWN_Y + pktSize + (MIN_GAP - pktSize) ≤ ny)

/-- The random draws `spawnPacket` consumes: the lane pick
(`Math.floor(Math.random() * candidates.length)`, modelled as an arbitrary
natural reduced mod the candidate count), the sprite pick, the validity roll
(`Math.random() < VALID_CHANCE`), and the generated id string. -/
structure SpawnRoll where
  laneRoll : Nat
  spriteRoll : Nat
  isValid : Bool
  id : String

/-- The `candidates` array built by `spawnPacket`: the lane indices that pass
`laneSafeToSpawn`. -/
def spawnCandidates (board : Board) (pktSize : ℚ) (ps : List Packet) : List Nat :=
  (List.range board.lanesX.length).filter (fun i => laneSafeToSpawn ps pktSize i)

/-- `spawnPacket`: bail out on malformed geometry
(`lanesX.length === 0 || h <= 0`); collect the safe lanes; if none, skip;
otherwise pick a safe lane, build the packet (`y = 10`, logo sprite and scale
only when valid) and append it to the store. -/
def spawnPacket (board : Board) (pktSize : ℚ) (roll : SpawnRoll) (ps : List Packet) :
    List Packet :=
  if board.lanesX.length = 0 ∨ board.h ≤ 0 then ps
  else
    let candidates := spawnCandidates board pktSize ps
    if h : candidates.length = 0 then ps
    else
      let lane := candidates.get ⟨roll.laneRoll % candidates.length,
        Nat.mod_lt _ (Nat.pos_of_ne_zero h)⟩
      let x := board.lanesX.getD lane 0
      let pick := GREEN_SPRITES.getD (roll.spriteRoll % GREEN_SPRITES.length) ⟨("logo1.png"), 1⟩
      ps ++ [{ id := roll.id, lane := lane, x := x, y := 10, size := pktSize,
               valid := roll.isValid,
               img := if roll.isValid then some pick.src else none,
               scale := if roll.isValid then pick.scale else 1 }]

/-- The packet `spawnPacket` appends when at least one lane candidate is
safe (same construction as in `spawnPacket`, named for the statements). -/
def spawnedPacket (board : Board) (pktSize : ℚ) (roll : SpawnRoll) (ps : List Packet)
    (h : ¬ (spawnCandidates board pktSize ps).length = 0) : Packet :=
  let candidates := spawnCandidates board pktSize ps
  let lane := candidates.get ⟨roll.laneRoll % candidates.length,
    Nat.mod_lt _ (Nat.pos_of_ne_zero h)⟩
  let x := board.lanesX.getD lane 0
  let pick := GREEN_SPRITES.getD (roll.spriteRoll % GREEN_SPRITES.length) ⟨("logo1.png"), 1⟩
  { id := roll.id, lane := lane, x := x, y := 10, size := pktSize,
    valid := roll.isValid,
    img := if roll.isValid then some pick.src else none,
    scale := if roll.isValid then pick.scale else 1 }

/-! ### Physics tick -/

/-- The integrate-and-remove loop of `tick` (iterated from the highest index
down, with `splice` removal; each element is decided independently, so the
head recursion below - which processes the tail, i.e. the higher indices,
first - computes the same result).  Returns the surviving (advanced) packets
in order together with the score delta accumulated from valid floor misses. -/
def tickLoop (step floorTopV : ℚ) : List Packet → List Packet × ℚ
  | [] => ([], 0)
  | p :: rest =>
    let r := tickLoop step floorTopV rest
    let nextY := p.y + step
    let wouldBottom := nextY + drawSize p
    if floorTopV ≤ wouldBottom then
      (r.1, r.2 + (if p.valid then SCORE_GREEN_MISS else 0))
    else
      ({ p with y := nextY } :: r.1, r.2)

/-- Result of one `tick` invocation: the new packet store, the new score, and
the updated `lastSpawnRef`. -/
structure TickResult where
  packets : List Packet
  score : ℚ
  lastSpawn : ℚ
deriving DecidableEq

/-- `tick`: bail out when not running; spawn when
`t - lastSpawnRef.current >= currentSpawnInterval()`; then advance every
packet by `step = currentSpeed() / 60` and remove the ones whose advanced
bottom edge reaches `floorTop`, charging `SCORE_GREEN_MISS` for valid ones.
`t` is `now()`; elapsed round time is `t - startedAt`. -/
def tick (board : Board) (pktSize : ℚ) (roll : SpawnRoll) (t startedAt lastSpawn : ℚ)
    (running : Bool) (ps : List Packet) (score : ℚ) : TickResult :=
  if running = false then ⟨ps, score, lastSpawn⟩
  else
    let needInterval := currentSpawnInterval (t - startedAt)
    let spawnNow := decide (needInterval ≤ t - lastSpawn)
    let ps1 := if spawnNow then spawnPacket board pktSize roll ps else ps
    let lastSpawn1 := if spawnNow then t else lastSpawn
    let step := currentSpeed (t - startedAt) / 60
    let moved := tickLoop step (floorTop board.h) ps1
    ⟨moved.1, score + moved.2, lastSpawn1⟩

/-! ### Hit tester -/

/-- Point-in-drawn-box test of `onFieldPointerDown`: `w = h = drawSize(p)`;
logos are horizontally centered in their lane slot
(`px = p.x + (p.size - w) / 2`), corrupted packets sit at `p.x`; the test is
`cx >= px && cx <= px + w && cy >= p.y && cy <= p.y + h`. -/
def inBox (cx cy : ℚ) (p : Packet) : Bool :=
  let w := drawSize p
  let hh := w
  let px := if p.valid && p.img.isSome then p.x + (p.size - w) / 2 else p.x
  decide (px ≤ cx) && decide (cx ≤ px + w) && decide (p.y ≤ cy) && decide (cy ≤ p.y + hh)

/-- Outcome of the pointer-down scan over the packet store. -/
inductive ClickOutcome where
  | noHit
  | hitValid (remaining : List Packet)
  | hitInvalid
deriving DecidableEq

/-- The scan loop of `onFieldPointerDown`: indices from `arr.length - 1` down
to `0`, first containing packet wins; a valid hit is spliced out (the
`remaining` list), an invalid hit aborts the scan.  The head recursion
consults the tail (the more recently spawned packets) first, exactly like the
reverse-index loop. -/
def clickScan (cx cy : ℚ) : List Packet → ClickOutcome
  | [] => ClickOutcome.noHit
  | p :: rest =>
    match clickScan cx cy rest with
    | ClickOutcome.noHit =>
      if inBox cx cy p then
        if p.valid then ClickOutcome.hitValid rest else ClickOutcome.hitInvalid
      else ClickOutcome.noHit
    | ClickOutcome.hitValid rem => ClickOutcome.hitValid (p :: rem)
    | ClickOutcome.hitInvalid => ClickOutcome.hitInvalid

/-- `onFieldPointerDown` state effect: no-op unless running; on a valid hit
add `SCORE_PER_HIT` and keep only the other packets; on an invalid hit invoke
`endGame("clicked_red")`, whose synchronous state effect clears the running
flag and moves the view to `gameover`.  The second component records the
reason passed to `endGame` (`none` when `endGame` is not invoked). -/
def onFieldPointerDown (s : GState) (cx cy : ℚ) : GState × Option String :=
  if s.running = false then (s, none)
  else
    match clickScan cx cy s.packets with
    | ClickOutcome.noHit => (s, none)
    | ClickOutcome.hitValid rem =>
      ({ s with packets := rem, score := s.score + SCORE_PER_HIT }, none)
    | ClickOutcome.hitInvalid =>
      ({ s with running := false, view := View.gameover }, some ("clicked_red"))

/-! ### End of round -/

/-- The whitespace set of JavaScript `String.prototype.trim` (common subset). -/
def isJsSpace (c : Char) : Bool :=
  (c = (' ')) || (c = ('\t')) || (c = ('\n')) || (c = ('\r'))

/-- `player.trim()`. -/
def jsTrim (s : String) : String :=
  String.mk (((s.toList.dropWhile isJsSpace).reverse.dropWhile isJsSpace).reverse)

/-- `s.slice(0, n)`. -/
def strTake (s : String) (n : Nat) : String := String.mk (s.toList.take n)

/-- Body of `POST {backend}/scores`. -/
structure ScorePost where
  name : String
  score : ℚ
  reason : String
deriving DecidableEq

/-- Observable effects of `endGame`: the score posts issued, the number of
leaderboard re-fetch attempts, whether the frame loop was cancelled, and the
final view / running flag. -/
structure EndGameEffects where
  posts : List ScorePost
  fetchAttempts : Nat
  frameCancelled : Bool
  view : View
  running : Bool
deriving DecidableEq

/-- `endGame(reason)`: clear the running flag and cancel the frame loop; in a
`try` block, POST `{name: player.trim().slice(0,20), score, reason}` when the
trimmed name is non-empty, then re-fetch the leaderboard (skipped when the
POST throws, since the exception jumps to the empty `catch`); finally
`setView("gameover")` unconditionally.  `postThrows` / `fetchThrows` model
the two network calls throwing. -/
def endGame (player : String) (scoreVal : ℚ) (reason : String)
    (postThrows fetchThrows : Bool) : EndGameEffects :=
  let trimmed := jsTrim player
  let posts := if trimmed.isEmpty then [] else [⟨strTake trimmed 20, scoreVal, reason⟩]
  let fetchAttempts := if (!trimmed.isEmpty) && postThrows then 0 else 1
  ⟨posts, fetchAttempts, true, View.gameover, false⟩

/-! ### Concrete fixtures used by the witness theorems -/

/-- A board measured at the default 560px height. -/
def boardEx : Board := ⟨620, 560, [14, (291 / 2), 277, (817 / 2), 540]⟩

/-- A board whose measured height collapsed to zero (malformed geometry). -/
def boardZeroH : Board := ⟨620, 0, [14, (291 / 2), 277, (817 / 2), 540]⟩

/-- A fixed random draw for the spawner. -/
def rollEx : SpawnRoll := ⟨0, 0, false, ("pkt0")⟩

/-- A valid logo packet high on the board. -/
def pValid : Packet := ⟨("v1"), 0, 14, 100, 66, true, some ("logo1.png"), 1⟩

/-- A corrupted packet. -/
def pInvalid : Packet := ⟨("r1"), 1, (291 / 2), 200, 66, false, none, 1⟩

/-- A valid packet one step above the floor of a 560px board. -/
def pNearFloor : Packet := ⟨("g1"), 2, 277, 470, 66, true, some ("logo2.png"), 1⟩

/-- A valid packet already past the floor threshold of a 560px board. -/
def pDeep : Packet := ⟨("g2"), 2, 277, 600, 66, true, some ("logo3.png"), 1⟩

/-- `pValid` after one physics step of the round started at `t = 0`. -/
def pValidMoved : Packet := { pValid with y := pValid.y + currentSpeed (0 - 0) / 60 }

/-- A packet sitting just below the spawn point in lane `n`, blocking it. -/
def blk (n : Nat) : Packet := ⟨("b1"), n, 0, 20, 66, false, none, 1⟩

/-- A store in which every one of the five lanes is blocked near the spawn y. -/
def psBlocked : List Packet := [blk 0, blk 1, blk 2, blk 3, blk 4]

/-- A running mid-round state: an older corrupted packet and a newer logo. -/
def sClick : GState := ⟨[pInvalid, pValid], 7, View.game, true⟩

/-! ### Basic lemmas -/

theorem jsMax_eq_max (a b : ℚ) : jsMax a b = max a b := by
  simp [jsMax, max_def]

theorem jsMin_eq_min (a b : ℚ) : jsMin a b = min a b := by
  simp [jsMin, min_def]

theorem currentSpeed_nonneg (t : ℚ) : 0 ≤ currentSpeed t := by
  have h0 : (0 : ℚ) ≤ jsMax 0 (t / 60000) := by
    rw [jsMax_eq_max]; exact le_max_left 0 _
  simp only [currentSpeed, BASE_SPEED_PX_S, SPEED_RAMP_PER_MIN]
  nlinarith

/-- C6: for all elapsed round times `0 ≤ t1 ≤ t2` (milliseconds, as the code
measures them), the fall speed is non-decreasing, the spawn interval is
non-increasing, and the spawn interval always stays within
`[SPAWN_MIN_MS, SPAWN_BASE_MS]`; both are pure functions of the elapsed
time. -/
theorem C6_difficulty_monotone (t1 t2 : ℚ) (h0 : 0 ≤ t1) (h12 : t1 ≤ t2) :
    currentSpeed t1 ≤ currentSpeed t2 ∧
    currentSpawnInterval t2 ≤ currentSpawnInterval t1 ∧
    SPAWN_MIN_MS ≤ currentSpawnInterval t1 ∧
    currentSpawnInterval t1 ≤ SPAWN_BASE_MS := by
  have hmm : jsMax 0 (t1 / 60000) ≤ jsMax 0 (t2 / 60000) := by
    rw [jsMax_eq_max, jsMax_eq_max]
    exact max_le_max le_rfl (div_le_div_of_nonneg_right h12 (by norm_num))
  refine ⟨?_, ?_, ?_, ?_⟩
  · simp only [currentSpeed, BASE_SPEED_PX_S, SPEED_RAMP_PER_MIN]
    nlinarith
  · simp only [currentSpawnInterval, clamp, jsMax_eq_max, jsMin_eq_min]
    refine max_le_max le_rfl (min_le_min le_rfl ?_)
    simp only [SPAWN_ACCEL_PER_MIN]
    rw [jsMax_eq_max, jsMax_eq_max] at hmm
    nlinarith [hmm]
  · simp only [currentSpawnInterval, clamp, jsMax_eq_max, jsMin_eq_min]
    exact le_max_left _ _
  · simp only [currentSpawnInterval, clamp, jsMax_eq_max, jsMin_eq_min,
      SPAWN_MIN_MS, SPAWN_BASE_MS]
    exact max_le (by norm_num) (min_le_left _ _)

/-- Witness for C6 at `t1 = 0`, `t2 = 60000` (one minute in). -/
theorem C6_difficulty_monotone_witness :
    currentSpeed 0 ≤ currentSpeed 60000 ∧
    currentSpawnInterval 60000 ≤ currentSpawnInterval 0 ∧
    SPAWN_MIN_MS ≤ currentSpawnInterval 0 ∧
    currentSpawnInterval 0 ≤ SPAWN_BASE_MS :=
  C6_difficulty_monotone 0 60000 (by decide) (by decide)

/-! ### The physics loop as a filter -/

theorem drawSize_set_y (p : Packet) (v : ℚ) :
    drawSize { p with y := v } = drawSize p := rfl

/-- The integrate-and-remove loop keeps exactly the packets whose advanced
bottom edge stays strictly above the floor top, advancing each by `step`. -/
theorem tickLoop_fst (step ft : ℚ) (ps : List Packet) :
    (tickLoop step ft ps).1 =
      (ps.filter (fun p => decide (p.y + step + drawSize p < ft))).map
        (fun p => { p with y := p.y + step }) := by
  induction ps with
  | nil => rfl
  | cons p rest ih =>
    by_cases hc : ft ≤ p.y + step + drawSize p
    · simp [tickLoop, if_pos hc, ih, List.filter_cons, not_lt.2 hc]
    · simp [tickLoop, if_neg hc, ih, List.filter_cons, not_le.1 hc]

/-- The loop's score delta is `SCORE_GREEN_MISS` per removed valid packet. -/
theorem tickLoop_snd (step ft : ℚ) (ps : List Packet) :
    (tickLoop step ft ps).2 =
      SCORE_GREEN_MISS *
        (((ps.filter (fun p => p.valid && decide (ft ≤ p.y + step + drawSize p))).length : ℕ) : ℚ) := by
  induction ps with
  | nil => simp [tickLoop]
  | cons p rest ih =>
    by_cases hc : ft ≤ p.y + step + drawSize p
    · cases hv : p.valid
      · simp [tickLoop, if_pos hc, ih, List.filter_cons, hv]
      · simp [tickLoop, if_pos hc, ih, List.filter_cons, hv, hc]
        ring
    · simp [tickLoop, if_neg hc, ih, List.filter_cons, hc]

/-- C1: after any physics tick of a running round (including the spawn the
tick may perform first, since spawned packets are advanced by the same
loop), every packet still present satisfies
`packet.y + drawSize packet ≤ floorTop` - its drawn extent never crosses the
floor line; a packet whose advanced bottom edge would reach or pass the
floor top has been removed during that same tick. -/
theorem C1_no_floor_crossing (board : Board) (pktSize : ℚ) (roll : SpawnRoll)
    (t startedAt lastSpawn : ℚ) (ps : List Packet) (score : ℚ) (p : Packet)
    (hmem : p ∈ (tick board pktSize roll t startedAt lastSpawn true ps score).packets) :
    p.y + drawSize p ≤ floorTop board.h := by
  simp only [tick, if_neg (by simp : ¬ (true = false))] at hmem
  rw [tickLoop_fst] at hmem
  rcases List.mem_map.1 hmem with ⟨q, hq, rfl⟩
  have hq2 := List.of_mem_filter hq
  simp only [decide_eq_true_eq] at hq2
  rw [drawSize_set_y]
  exact le_of_lt hq2

/-- Evaluation of one tick on the fixture round. -/
theorem tick_fixture_eval :
    tick boardEx 66 rollEx 0 0 0 true [pValid] 0 = ⟨[pValidMoved], 0, 0⟩ := by
  have hint : currentSpawnInterval (0 - 0) = 520 := by
    norm_num [currentSpawnInterval, clamp, jsMax, jsMin, SPAWN_BASE_MS, SPAWN_MIN_MS,
      SPAWN_ACCEL_PER_MIN]
  have hspeed : currentSpeed (0 - 0) = 260 := by
    norm_num [currentSpeed, jsMax, BASE_SPEED_PX_S, SPEED_RAMP_PER_MIN]
  have hspeed0 : currentSpeed 0 = 260 := by
    norm_num [currentSpeed, jsMax, BASE_SPEED_PX_S, SPEED_RAMP_PER_MIN]
  simp only [tick, if_neg (by simp : ¬ (true = false)), hint, hspeed]
  norm_num [tickLoop, drawSize, pValid, floorTop, boardEx, FLOOR_PAD_PX, FLOOR_HEIGHT_PX,
    pValidMoved, hspeed, hspeed0]

/-- Witness for C1: the surviving fixture packet respects the floor bound. -/
theorem C1_no_floor_crossing_witness :
    pValidMoved.y + drawSize pValidMoved ≤ floorTop boardEx.h :=
  C1_no_floor_crossing boardEx 66 rollEx 0 0 0 [pValid] 0 pValidMoved
    (by rw [tick_fixture_eval]; exact List.mem_singleton.2 rfl)

/-- C5: the floor threshold of the physics tick is the board height minus the
fixed floor padding (12) minus the floor line thickness (8), and the loop
removes a packet exactly when advancing its `y` by `step` would make its
bottom edge reach or pass that threshold, for all board heights and packet
stores. -/
theorem C5_floor_threshold (h step : ℚ) (ps : List Packet) :
    floorTop h = h - FLOOR_PAD_PX - FLOOR_HEIGHT_PX ∧
    floorTop h = h - 12 - 8 ∧
    (tickLoop step (floorTop h) ps).1 =
      (ps.filter (fun p => decide (p.y + step + drawSize p < floorTop h))).map
        (fun p => { p with y := p.y + step }) :=
  ⟨rfl, by norm_num [floorTop, FLOOR_PAD_PX, FLOOR_HEIGHT_PX], tickLoop_fst _ _ _⟩

/-- A store made of `n` copies of a removed valid packet loses `5·n` points. -/
theorem tickLoop_replicate_removed (n : ℕ) (step ft : ℚ) (p : Packet)
    (hc : ft ≤ p.y + step + drawSize p) (hv : p.valid = true) :
    (tickLoop step ft (List.replicate n p)).2 = SCORE_GREEN_MISS * (n : ℚ) := by
  induction n with
  | zero => simp [tickLoop]
  | succ n ih =>
    simp only [List.replicate_succ, tickLoop, if_pos hc, ih, hv, if_true]
    push_cast
    ring

/-- C4: in the physics loop, every valid packet whose advanced bottom edge
reaches or passes the floor top is removed and contributes exactly
`SCORE_GREEN_MISS` to the score, every invalid packet reaching the floor is
removed with no score contribution (first two conjuncts), and the resulting
score has no lower bound (third conjunct: a round at 560px board height can
lose more than any bound through missed valid packets). -/
theorem C4_floor_scoring (step ft : ℚ) (ps : List Packet) (score : ℚ) :
    (tickLoop step ft ps).2 =
      SCORE_GREEN_MISS *
        (((ps.filter (fun p => p.valid && decide (ft ≤ p.y + step + drawSize p))).length : ℕ) : ℚ) ∧
    (tickLoop step ft ps).1 =
      (ps.filter (fun p => decide (p.y + step + drawSize p < ft))).map
        (fun p => { p with y := p.y + step }) ∧
    ∀ q : ℚ, ∃ n : ℕ,
      score + (tickLoop (currentSpeed 0 / 60) (floorTop 560) (List.replicate n pNearFloor)).2 < q := by
  refine ⟨tickLoop_snd _ _ _, tickLoop_fst _ _ _, ?_⟩
  intro q
  obtain ⟨n, hn⟩ := exists_nat_gt ((score - q) / 5)
  refine ⟨n, ?_⟩
  have hc : floorTop 560 ≤ pNearFloor.y + currentSpeed 0 / 60 + drawSize pNearFloor := by
    norm_num [floorTop, drawSize, pNearFloor, currentSpeed, jsMax,
      BASE_SPEED_PX_S, SPEED_RAMP_PER_MIN, FLOOR_PAD_PX, FLOOR_HEIGHT_PX]
  rw [tickLoop_replicate_removed n _ _ _ hc rfl]
  have h5 : score - q < 5 * (n : ℚ) := by
    have := (div_lt_iff (by norm_num : (0 : ℚ) < 5)).1 hn
    linarith
  simp only [SCORE_GREEN_MISS]
  linarith

/-! ### Hit-tester lemmas -/

/-- A scan over packets none of which contains the pointer finds nothing. -/
theorem clickScan_none (cx cy : ℚ) (l : List Packet)
    (h : ∀ q ∈ l, inBox cx cy q = false) : clickScan cx cy l = ClickOutcome.noHit := by
  induction l with
  | nil => rfl
  | cons p rest ih =>
    have hr := ih (fun q hq => h q (List.mem_cons_of_mem _ hq))
    simp [clickScan, hr, h p (List.mem_cons_self _ _)]

/-- Splitting the store as `pre ++ p :: suf` where no packet of `suf` (the
packets spawned after `p`) contains the pointer and `p` does: the scan
resolves to `p`, and a valid hit removes exactly `p`. -/
theorem clickScan_top (cx cy : ℚ) (pre suf : List Packet) (p : Packet)
    (hp : inBox cx cy p = true) (hsuf : ∀ q ∈ suf, inBox cx cy q = false) :
    clickScan cx cy (pre ++ p :: suf) =
      if p.valid then ClickOutcome.hitValid (pre ++ suf) else ClickOutcome.hitInvalid := by
  induction pre with
  | nil =>
    simp only [List.nil_append, clickScan, clickScan_none cx cy suf hsuf, hp, if_true]
  | cons a pre ih =>
    simp only [List.cons_append, clickScan, List.append_eq]
    rw [ih]
    cases hv : p.valid
    · simp [hv]
    · simp [hv]

/-- C2: during a running round, a pointer-down at `(cx, cy)` whose topmost
(most recently spawned) containing packet `p` is valid adds exactly
`SCORE_PER_HIT` to the score and removes exactly `p` from the store; the
view, the running flag and every other packet are unchanged. -/
theorem C2_valid_click (s : GState) (cx cy : ℚ) (pre suf : List Packet) (p : Packet)
    (hrun : s.running = true) (hsplit : s.packets = pre ++ p :: suf)
    (hp : inBox cx cy p = true) (hv : p.valid = true)
    (hsuf : ∀ q ∈ suf, inBox cx cy q = false) :
    onFieldPointerDown s cx cy =
      ({ s with packets := pre ++ suf, score := s.score + SCORE_PER_HIT }, none) := by
  simp [onFieldPointerDown, hrun, hsplit, clickScan_top cx cy pre suf p hp hsuf, hv]

/-- Witness for C2: clicking the logo of the running fixture state removes
it, pays 10 points and keeps everything else. -/
theorem C2_valid_click_witness :
    onFieldPointerDown sClick 20 120 =
      ({ sClick with packets := [pInvalid] ++ [], score := sClick.score + SCORE_PER_HIT },
        none) :=
  C2_valid_click sClick 20 120 [pInvalid] [] pValid rfl rfl
    (by norm_num [inBox, drawSize, pValid]) rfl (by simp)

/-- C3: during a running round, a pointer-down whose topmost containing
packet is invalid invokes `endGame` with reason `"clicked_red"`, which clears
the running flag and moves the view to `gameover`; the score is not changed
by the click, whatever its current value. -/
theorem C3_invalid_click (s : GState) (cx cy : ℚ) (pre suf : List Packet) (p : Packet)
    (hrun : s.running = true) (hsplit : s.packets = pre ++ p :: suf)
    (hp : inBox cx cy p = true) (hv : p.valid = false)
    (hsuf : ∀ q ∈ suf, inBox cx cy q = false) :
    onFieldPointerDown s cx cy =
      ({ s with running := false, view := View.gameover }, some ("clicked_red")) := by
  simp [onFieldPointerDown, hrun, hsplit, clickScan_top cx cy pre suf p hp hsuf, hv]

/-- Witness for C3: clicking the corrupted packet of the fixture state ends
the round with reason `"clicked_red"` at score 7. -/
theorem C3_invalid_click_witness :
    onFieldPointerDown sClick 150 210 =
      ({ sClick with running := false, view := View.gameover }, some ("clicked_red")) :=
  C3_invalid_click sClick 150 210 [] [pValid] pInvalid rfl rfl
    (by norm_num [inBox, drawSize, pInvalid]) rfl
    (by intro q hq; simp only [List.mem_singleton] at hq; subst hq
        norm_num [inBox, drawSize, pValid])

/-- C10: a pointer-down while the round is not running, or one whose
coordinate is contained in no packet's drawn box, changes nothing: packets,
score and view are all left as they were. -/
theorem C10_no_match_noop (s : GState) (cx cy : ℚ)
    (h : s.running = false ∨ ∀ q ∈ s.packets, inBox cx cy q = false) :
    onFieldPointerDown s cx cy = (s, none) := by
  rcases h with hr | hnone
  · simp [onFieldPointerDown, hr]
  · by_cases hr : s.running = false
    · simp [onFieldPointerDown, hr]
    · simp [onFieldPointerDown, hr, clickScan_none cx cy s.packets hnone]

/-- Witness for C10: a click at the top-left corner of the fixture board
hits nothing and is a no-op. -/
theorem C10_no_match_noop_witness :
    onFieldPointerDown sClick 0 0 = (sClick, none) :=
  C10_no_match_noop sClick 0 0
    (Or.inr (by
      intro q hq
      simp only [sClick, List.mem_cons, List.mem_singleton, List.not_mem_nil] at hq
      rcases hq with rfl | rfl | h
      · norm_num [inBox, drawSize, pInvalid]
      · norm_num [inBox, drawSize, pValid]
      · exact h.elim))

/-! ### Spawner safety -/

/-- Every packet of lane `L` sits at or below the lane's `nearestY`. -/
theorem nearestYInLane_le (ps : List Packet) (L : Nat) (q : Packet)
    (hq : q ∈ ps) (hL : q.lane = L) :
    ∃ ny, nearestYInLane ps L = some ny ∧ ny ≤ q.y := by
  induction ps with
  | nil => cases hq
  | cons p rest ih =>
    rcases List.mem_cons.1 hq with rfl | hmem
    · cases hr : nearestYInLane rest L with
      | none => exact ⟨q.y, by simp [nearestYInLane, hL, hr], le_refl _⟩
      | some ny =>
        by_cases hlt : q.y < ny
        · exact ⟨q.y, by simp [nearestYInLane, hL, hr, hlt], le_refl _⟩
        · exact ⟨ny, by simp [nearestYInLane, hL, hr, hlt], le_of_not_lt hlt⟩
    · obtain ⟨ny, hsome, hle⟩ := ih hmem
      by_cases hpl : p.lane = L
      · by_cases hlt : p.y < ny
        · exact ⟨p.y, by simp [nearestYInLane, hpl, hsome, hlt],
            le_trans (le_of_lt hlt) hle⟩
        · exact ⟨ny, by simp [nearestYInLane, hpl, hsome, hlt], hle⟩
      · exact ⟨ny, by simp [nearestYInLane, hpl, hsome], hle⟩

/-- A lane reported safe keeps every one of its packets at least
`MIN_GAP = pktSize * 1.25` below the spawn y. -/
theorem laneSafe_gap (ps : List Packet) (sz : ℚ) (L : Nat)
    (hsafe : laneSafeToSpawn ps sz L = true) (q : Packet) (hq : q ∈ ps)
    (hL : q.lane = L) : SPAWN_Y + sz * (5 / 4) ≤ q.y := by
  obtain ⟨ny, hsome, hle⟩ := nearestYInLane_le ps L q hq hL
  simp only [laneSafeToSpawn, hsome, decide_eq_true_eq] at hsafe
  linarith

/-- C7: a spawner invocation either leaves the packet store unchanged or
appends one packet whose lane keeps every pre-existing packet at least the
minimum vertical gap (`pktSize * 1.25`) below the spawn y (so no overlapping
spawn in a lane); and whenever no safe lane candidate exists the store is
left completely unchanged (the attempt is silently skipped). -/
theorem C7_spawn_no_overlap (board : Board) (pktSize : ℚ) (roll : SpawnRoll)
    (ps : List Packet) :
    (spawnCandidates board pktSize ps = [] →
      spawnPacket board pktSize roll ps = ps) ∧
    (spawnPacket board pktSize roll ps = ps ∨
      ∃ newp, spawnPacket board pktSize roll ps = ps ++ [newp] ∧
        ∀ q ∈ ps, q.lane = newp.lane → SPAWN_Y + pktSize * (5 / 4) ≤ q.y) := by
  constructor
  · intro hfe
    by_cases hg : board.lanesX.length = 0 ∨ board.h ≤ 0
    · simp only [spawnPacket]
      rw [if_pos hg]
    · simp only [spawnPacket, if_neg hg]
      exact dif_pos (by rw [hfe]; rfl)
  · by_cases hg : board.lanesX.length = 0 ∨ board.h ≤ 0
    · left
      simp only [spawnPacket]
      rw [if_pos hg]
    · by_cases hlen : (spawnCandidates board pktSize ps).length = 0
      · left
        simp only [spawnPacket, if_neg hg]
        exact dif_pos hlen
      · right
        refine ⟨spawnedPacket board pktSize roll ps hlen, ?_, ?_⟩
        · simp only [spawnPacket, if_neg hg]
          rw [dif_neg hlen]
          rfl
        · intro q hq hL
          have hmem : (spawnCandidates board pktSize ps).get
              ⟨roll.laneRoll % (spawnCandidates board pktSize ps).length,
                Nat.mod_lt _ (Nat.pos_of_ne_zero hlen)⟩ ∈
              spawnCandidates board pktSize ps := List.get_mem _ _ _
          have hsafe := (List.mem_filter.1 hmem).2
          exact laneSafe_gap ps pktSize _ hsafe q hq hL

/-- Witness for C7: with every lane blocked near the spawn point, the
spawner leaves the store untouched. -/
theorem C7_spawn_no_overlap_witness :
    spawnPacket boardEx 66 rollEx psBlocked = psBlocked :=
  (C7_spawn_no_overlap boardEx 66 rollEx psBlocked).1
    (by norm_num [spawnCandidates, boardEx, List.range_succ, laneSafeToSpawn,
      nearestYInLane, psBlocked, blk, SPAWN_Y])

/-! ### Malformed geometry (C8) -/

/-- Evaluation of one tick on a zero-height board holding one valid packet:
the packet is removed (its bottom is past the degenerate floor threshold
`0 - 20`) and the miss penalty is applied. -/
theorem tick_zeroH_eval :
    tick boardZeroH 66 rollEx 0 0 0 true [pValid] 0 = ⟨[], -5, 0⟩ := by
  have hint : currentSpawnInterval (0 - 0) = 520 := by
    norm_num [currentSpawnInterval, clamp, jsMax, jsMin, SPAWN_BASE_MS, SPAWN_MIN_MS,
      SPAWN_ACCEL_PER_MIN]
  have hspeed : currentSpeed (0 - 0) = 260 := by
    norm_num [currentSpeed, jsMax, BASE_SPEED_PX_S, SPEED_RAMP_PER_MIN]
  simp only [tick, if_neg (by simp : ¬ (true = false)), hint, hspeed]
  norm_num [tickLoop, drawSize, pValid, floorTop, boardZeroH, FLOOR_PAD_PX,
    FLOOR_HEIGHT_PX, SCORE_GREEN_MISS]

/-- Counterexample to C8 as stated: on a zero-height board the physics tick
is not a no-op - the packet store and the score both change. -/
theorem C8_tick_not_noop_counterexample :
    ¬ ((tick boardZeroH 66 rollEx 0 0 0 true [pValid] 0).packets = [pValid] ∧
       (tick boardZeroH 66 rollEx 0 0 0 true [pValid] 0).score = 0) := by
  intro hcon
  rw [tick_zeroH_eval] at hcon
  exact absurd hcon.1 (by simp)

/-- C8 (amended): with malformed board geometry (no lane offsets or
non-positive height) the spawner is a no-op leaving the store unchanged and
raising no error; the physics tick, however, keeps processing packets
against the degenerate floor threshold `h - 20`: with `h ≤ 0` every packet
(at a non-negative position with non-negative drawn height) is removed in
one tick and each valid one still charges the miss penalty. -/
theorem C8_geometry_guard (board : Board) (pktSize : ℚ) (roll : SpawnRoll)
    (ps : List Packet) (t startedAt lastSpawn score : ℚ)
    (hps : ∀ p ∈ ps, 0 ≤ p.y ∧ 0 ≤ drawSize p) :
    ((board.lanesX.length = 0 ∨ board.h ≤ 0) → spawnPacket board pktSize roll ps = ps) ∧
    (board.h ≤ 0 →
      (tick board pktSize roll t startedAt lastSpawn true ps score).packets = [] ∧
      (tick board pktSize roll t startedAt lastSpawn true ps score).score =
        score + SCORE_GREEN_MISS * (((ps.filter (fun p => p.valid)).length : ℕ) : ℚ)) := by
  have hstep : (0 : ℚ) ≤ currentSpeed (t - startedAt) / 60 :=
    div_nonneg (currentSpeed_nonneg _) (by norm_num)
  constructor
  · intro hg
    simp only [spawnPacket]
    rw [if_pos hg]
  · intro hh
    have hspawn : spawnPacket board pktSize roll ps = ps := by
      simp only [spawnPacket]
      rw [if_pos (Or.inr hh)]
    have hft : floorTop board.h ≤ 0 := by
      simp only [floorTop, FLOOR_PAD_PX, FLOOR_HEIGHT_PX]
      linarith
    have hall : ∀ p ∈ ps,
        floorTop board.h ≤ p.y + currentSpeed (t - startedAt) / 60 + drawSize p := by
      intro p hp
      have h1 := (hps p hp).1
      have h2 := (hps p hp).2
      linarith
    constructor
    · simp only [tick, if_neg (by simp : ¬ (true = false)), hspawn, ite_self]
      rw [tickLoop_fst]
      rw [List.filter_eq_nil.2]
      · rfl
      · intro p hp
        simp only [decide_eq_true_eq, not_lt]
        exact hall p hp
    · simp only [tick, if_neg (by simp : ¬ (true = false)), hspawn, ite_self]
      rw [tickLoop_snd]
      have hfeq : ps.filter
            (fun p => p.valid &&
              decide (floorTop board.h ≤ p.y + currentSpeed (t - startedAt) / 60 + drawSize p)) =
          ps.filter (fun p => p.valid) := by
        apply List.filter_congr
        intro p hp
        cases hv : p.valid
        · simp
        · simp [decide_eq_true_eq]
          exact hall p hp
      rw [hfeq]

/-- Witness for C8 (amended) on the zero-height board fixture. -/
theorem C8_geometry_guard_witness :
    spawnPacket boardZeroH 66 rollEx [pValid] = [pValid] ∧
    (tick boardZeroH 66 rollEx 0 0 0 true [pValid] 0).packets = [] ∧
    (tick boardZeroH 66 rollEx 0 0 0 true [pValid] 0).score =
      0 + SCORE_GREEN_MISS * ((([pValid].filter (fun p => p.valid)).length : ℕ) : ℚ) := by
  have h := C8_geometry_guard boardZeroH 66 rollEx [pValid] 0 0 0 0
    (by norm_num [pValid, drawSize])
  exact ⟨h.1 (Or.inr (by norm_num [boardZeroH])), h.2 (by norm_num [boardZeroH])⟩

/-! ### End-of-round persistence (C9) -/

/-- C9: `endGame` clears the running flag and cancels the frame loop,
attempts at most one score POST - whose body carries the trimmed player
name truncated to at most 20 characters, the final score and the reason -
and at most one leaderboard re-fetch, and moves the view to `gameover`
whether or not the POST or the fetch throws. -/
theorem C9_end_game (player : String) (scoreVal : ℚ) (reason : String)
    (postThrows fetchThrows : Bool) :
    (endGame player scoreVal reason postThrows fetchThrows).posts.length ≤ 1 ∧
    (∀ b ∈ (endGame player scoreVal reason postThrows fetchThrows).posts,
       b.name = strTake (jsTrim player) 20 ∧ b.name.length ≤ 20 ∧
       b.score = scoreVal ∧ b.reason = reason) ∧
    (endGame player scoreVal reason postThrows fetchThrows).fetchAttempts ≤ 1 ∧
    (endGame player scoreVal reason postThrows fetchThrows).frameCancelled = true ∧
    (endGame player scoreVal reason postThrows fetchThrows).view = View.gameover ∧
    (endGame player scoreVal reason postThrows fetchThrows).running = false := by
  have hlen : (strTake (jsTrim player) 20).length ≤ 20 := by
    have h1 : (strTake (jsTrim player) 20).length =
        ((jsTrim player).toList.take 20).length := rfl
    rw [h1, List.length_take]
    exact Nat.min_le_left _ _
  unfold endGame
  cases he : (jsTrim player).isEmpty
  · refine ⟨by simp [he], ?_, ?_, by simp [he], by simp [he], by simp [he]⟩
    · intro b hb
      simp only [he] at hb
      simp at hb
      subst hb
      exact ⟨rfl, hlen, rfl, rfl⟩
    · cases postThrows <;> simp [he]
  · exact ⟨by simp [he], by simp [he], by simp [he], by simp [he], by simp [he],
      by simp [he]⟩

/-- Witness for C9: a concrete run with a padded name and a clean network. -/
theorem C9_end_game_witness :
    (endGame ("  Ada  ") 120 ("clicked_red") false false).view = View.gameover ∧
    (endGame ("  Ada  ") 120 ("clicked_red") false false).posts.length ≤ 1 :=
  ⟨(C9_end_game ("  Ada  ") 120 ("clicked_red") false false).2.2.2.2.1,
   (C9_end_game ("  Ada  ") 120 ("clicked_red") false false).1⟩

end DataDefender








